import Mathlib

/-!
Shallow embedding of the reorderable-list example (pragmatic-drag-and-drop).

The repository contains two variants of the same example component:
* `src/unnamed/part_000` — the full variant (adjacency-filtered drop
  indicator in `onDrag`, a move record with `previousIndex`,
  `currentIndex` and `numberOfItems`);
* `src/src/example.tsx` — a simplified variant (no indicator filtering,
  move record reduced to the moved item), mounted by `src/unnamed/part_001`.

The library utilities `getReorderDestinationIndex` (from
`@atlaskit/pragmatic-drag-and-drop-hitbox`) and `reorder` (from
`@atlaskit/pragmatic-drag-and-drop`) are imported by the source but their
code is not part of this repository; they are modelled from the spec
(sections 4.2 and 4.3) and marked `Modelled from the spec:` below.
Everything else is translated directly from the source files.
-/

/-- Vertical-axis edges, as in `allowedEdges: ['top', 'bottom']` in the
source. The spec's abstract `before` is `top` and `after` is `bottom` on
the vertical axis; the spec's `none` is `Option.none`. -/
inductive Edge where
  | top
  | bottom
  deriving DecidableEq, Repr

/-- Item record: `type Item = { id: string; label: string }`. -/
structure Item where
  id : String
  label : String
  deriving DecidableEq, Repr

/-- Modelled from the spec: the library utility `getReorderDestinationIndex`
(imported from `@atlaskit/pragmatic-drag-and-drop-hitbox/util/get-reorder-destination-index`,
code not in this repository), called with `axis: 'vertical'`.
Spec 4.2: with edge `before` (`top`) the moved item lands immediately
before the target, accounting for the removal shift when the source sits
before the target; with edge `after` (`bottom`) it lands immediately
after the target, symmetrically. Edge `none` is treated as `after` by
convention (spec 4.2 and Design Notes). -/
def getReorderDestinationIndex (startIndex : Nat) (closestEdgeOfTarget : Option Edge)
    (indexOfTarget : Nat) : Nat :=
  if closestEdgeOfTarget = some Edge.top then
    if startIndex < indexOfTarget then indexOfTarget - 1 else indexOfTarget
  else
    if startIndex ≤ indexOfTarget then indexOfTarget else indexOfTarget + 1

/-- Modelled from the spec: the library utility `reorder` (imported from
`@atlaskit/pragmatic-drag-and-drop/reorder`, code not in this repository).
Spec 4.3: removes the item at `startIndex` and reinserts it at
`finishIndex`; all other items retain relative order. When `startIndex`
does not address an item the list is returned unchanged. -/
def reorder {α : Type} (list : List α) (startIndex finishIndex : Nat) : List α :=
  match list[startIndex]? with
  | none => list
  | some removed => (list.eraseIdx startIndex).insertIdx finishIndex removed

/-- Move record, `lastCardMoved` in `part_000` lines 329-334. The source
reads `listState.items[startIndex]`, which is `undefined` when
`startIndex` is out of range, hence `Option Item` here. -/
structure LastCardMoved where
  item : Option Item
  previousIndex : Nat
  currentIndex : Nat
  numberOfItems : Nat
  deriving DecidableEq, Repr

/-- List state, `type ListState` in `part_000` lines 278-286. -/
structure ListState where
  items : List Item
  lastCardMoved : Option LastCardMoved
  deriving DecidableEq, Repr

/-- Translation of `reorderItem` (`part_000` lines 298-339): compute the
destination via `getReorderDestinationIndex`, skip the update when it
equals `startIndex`, otherwise apply `reorder` and record the move in a
single state transition. -/
def reorderItem (startIndex indexOfTarget : Nat) (closestEdgeOfTarget : Option Edge)
    (listState : ListState) : ListState :=
  let finishIndex := getReorderDestinationIndex startIndex closestEdgeOfTarget indexOfTarget
  if finishIndex = startIndex then
    listState
  else
    { items := reorder listState.items startIndex finishIndex
      lastCardMoved := some
        { item := listState.items[startIndex]?
          previousIndex := startIndex
          currentIndex := finishIndex
          numberOfItems := listState.items.length } }

/-- The default items of the example (`defaultItems` in both variants). -/
def defaultItems : List Item :=
  [⟨"task-1", "Organize a team-building event"⟩,
   ⟨"task-2", "Create and maintain office inventory"⟩,
   ⟨"task-3", "Update company website content"⟩]

/-- Registry state of `getItemRegistry`: a `Map<string, HTMLElement>`,
modelled as a key-to-handle map; handles are opaque tokens (`Nat`). -/
def Registry : Type := String → Option Nat

/-- Empty registry, `new Map()`. -/
def Registry.empty : Registry := fun _ => none

/-- JS `Map.prototype.set` on string keys. -/
def Registry.set (r : Registry) (itemId : String) (element : Nat) : Registry :=
  fun key => if key = itemId then some element else r key

/-- JS `Map.prototype.delete` on string keys. -/
def Registry.delete (r : Registry) (itemId : String) : Registry :=
  fun key => if key = itemId then none else r key

/-- Translation of `register` inside `getItemRegistry` (`part_000` lines
263-269): stores the entry, and returns the `unregister` closure, which
captures only `itemId` and performs `registry.delete(itemId)` on whatever
registry state it is invoked against. -/
def register (r : Registry) (itemId : String) (element : Nat) :
    Registry × (Registry → Registry) :=
  (Registry.set r itemId element, fun current => Registry.delete current itemId)

/-- Translation of `getElement` inside `getItemRegistry` (`part_000`
lines 271-273): `registry.get(itemId) ?? null`. -/
def getElement (r : Registry) (itemId : String) : Option Nat := r itemId

/-- Payload attached to a draggable: `getItemData` produces
`{ [itemKey]: true, item, index, instanceId }` (`part_000` lines 44-58). -/
structure ItemData where
  item : Item
  index : Nat
  instanceId : Nat
  deriving DecidableEq, Repr

/-- Drag payloads as seen by the handlers: either a payload built by
`getItemData` (carrying the private `itemKey` tag) or any other record,
which fails the `isItemData` shape check. -/
inductive DragData where
  | itemData (data : ItemData)
  | other
  deriving DecidableEq, Repr

/-- Translation of `isItemData` (`part_000` lines 60-62): the check
`data[itemKey] === true` succeeds exactly on payloads built by
`getItemData`. -/
def isItemData : DragData → Bool
  | DragData.itemData _ => true
  | DragData.other => false

/-- Drop-target payload: the target's `ItemData` together with the
closest edge attached by `attachClosestEdge` and read back by
`extractClosestEdge`. -/
structure TargetPayload where
  data : DragData
  closestEdge : Option Edge
  deriving DecidableEq, Repr

/-- Translation of the monitor's `onDrop` handler (`part_000` lines
346-370, identical in `example.tsx` lines 201-223): take the first drop
target (return unchanged when there is none), check both payload shapes,
resolve the target id in the current list with `findIndex` (return
unchanged when negative), then call `reorderItem`. -/
def onDrop (listState : ListState) (dropTargets : List TargetPayload)
    (sourceData : DragData) : ListState :=
  match dropTargets with
  | [] => listState
  | target :: _ =>
    match sourceData, target.data with
    | DragData.itemData src, DragData.itemData tgt =>
      match listState.items.findIdx? (fun it => it.id == tgt.item.id) with
      | none => listState
      | some indexOfTarget =>
        reorderItem src.index indexOfTarget target.closestEdge listState
    | _, _ => listState

/-- Translation of `canMonitor` (`part_000` lines 343-345):
`isItemData(source.data) && source.data.instanceId === instanceId`; when
the shape check fails the conjunction is already false. -/
def canMonitor (instanceId : Nat) (sourceData : DragData) : Bool :=
  match sourceData with
  | DragData.itemData data => data.instanceId == instanceId
  | DragData.other => false

/-- A monitored drop: `monitorForElements` invokes `onDrop` only when
`canMonitor` accepted the drag source, so a rejected source leaves the
state untouched. -/
def monitorDrop (instanceId : Nat) (listState : ListState)
    (dropTargets : List TargetPayload) (sourceData : DragData) : ListState :=
  if canMonitor instanceId sourceData then onDrop listState dropTargets sourceData
  else listState

/-- Translation of the drop target's `onDrag` handler in `part_000`
(lines 162-186), computing the indicator edge a list item displays.
`source.element === element` holds exactly when the hovered item is the
dragged item, i.e. `index = sourceIndex`. The JS comparisons
`index === sourceIndex - 1` and `index === sourceIndex + 1` are over
integers, so the former is rendered as `index + 1 = sourceIndex`. -/
def onDragClosestEdge (index sourceIndex : Nat) (closestEdge : Option Edge) : Option Edge :=
  if index = sourceIndex then none
  else if (index + 1 = sourceIndex ∧ closestEdge = some Edge.bottom) ∨
      (index = sourceIndex + 1 ∧ closestEdge = some Edge.top) then none
  else closestEdge

/-- Translation of the drop target's `onDrag` handler in `example.tsx`
(lines 76-85): the indicator is hidden for the dragged item itself and
otherwise shows the extracted closest edge, with no adjacency filtering. -/
def onDragClosestEdgeSimple (index sourceIndex : Nat) (closestEdge : Option Edge) :
    Option Edge :=
  if index = sourceIndex then none else closestEdge

/-- Move record of the `example.tsx` variant (`lastMoved`, lines
140-142): it keeps only the moved item. As in `LastCardMoved`, the item
is read with `listState.items[startIndex]`, hence `Option Item`. -/
structure LastMoved where
  item : Option Item
  deriving DecidableEq, Repr

/-- List state of the `example.tsx` variant (`type ListState`, lines
138-143). -/
structure ListStateSimple where
  items : List Item
  lastMoved : Option LastMoved
  deriving DecidableEq, Repr

/-- Translation of `reorderItem` in `example.tsx` (lines 156-194): the
destination computation and the no-op guard are the same as in
`part_000`, but the recorded move keeps only the item read at
`startIndex` (lines 187-189). -/
def reorderItemSimple (startIndex indexOfTarget : Nat) (closestEdgeOfTarget : Option Edge)
    (listState : ListStateSimple) : ListStateSimple :=
  let finishIndex := getReorderDestinationIndex startIndex closestEdgeOfTarget indexOfTarget
  if finishIndex = startIndex then
    listState
  else
    { items := reorder listState.items startIndex finishIndex
      lastMoved := some { item := listState.items[startIndex]? } }

/-! Shared helper lemmas about the embedded operations. -/

theorem getReorderDestinationIndex_lt (startIndex indexOfTarget n : Nat)
    (e : Option Edge) (hs : startIndex < n) (ht : indexOfTarget < n) :
    getReorderDestinationIndex startIndex e indexOfTarget < n := by
  unfold getReorderDestinationIndex
  split <;> split <;> omega

theorem getReorderDestinationIndex_self (i : Nat) (e : Option Edge) :
    getReorderDestinationIndex i e i = i := by
  unfold getReorderDestinationIndex
  split <;> simp

theorem insertIdx_perm_cons {α : Type} (a : α) :
    ∀ (n : Nat) (l : List α), n ≤ l.length → (l.insertIdx n a).Perm (a :: l)
  | 0, l, _ => by simp [List.insertIdx_zero]
  | n + 1, [], h => by simp at h
  | n + 1, x :: xs, h => by
    rw [List.insertIdx_succ_cons]
    exact ((insertIdx_perm_cons a n xs (Nat.le_of_succ_le_succ h)).cons x).trans
      (List.Perm.swap a x xs)

theorem perm_get_cons_eraseIdx {α : Type} :
    ∀ (l : List α) (n : Nat) (h : n < l.length),
      l.Perm (l.get ⟨n, h⟩ :: l.eraseIdx n)
  | _ :: _, 0, _ => List.Perm.refl _
  | x :: xs, n + 1, h => by
    have ih := perm_get_cons_eraseIdx xs n (Nat.lt_of_succ_lt_succ h)
    exact (ih.cons x).trans (List.Perm.swap _ x _)

theorem insertIdx_eraseIdx_self {α : Type} :
    ∀ (l : List α) (n : Nat) (h : n < l.length),
      (l.eraseIdx n).insertIdx n (l.get ⟨n, h⟩) = l
  | _ :: _, 0, _ => rfl
  | x :: xs, n + 1, h => by
    have ih := insertIdx_eraseIdx_self xs n (Nat.lt_of_succ_lt_succ h)
    simpa [List.eraseIdx, List.insertIdx_succ_cons] using congrArg (List.cons x) ih

/-- C1: for every drag gesture with `sourceIndex` and `targetIndex` in
`[0, n)` and an edge among `before` (`top`) and `after` (`bottom`), the
Reorder Calculator returns exactly `base - 1` when `sourceIndex < base`
and `base` otherwise, where `base = targetIndex + (1 if edge = after
else 0)`; the result always lies within `[0, n)`. -/
theorem getReorderDestinationIndex_rule (sourceIndex targetIndex n : Nat) (edge : Edge)
    (hs : sourceIndex < n) (ht : targetIndex < n) :
    getReorderDestinationIndex sourceIndex (some edge) targetIndex =
      (if sourceIndex < targetIndex + (if edge = Edge.bottom then 1 else 0)
       then targetIndex + (if edge = Edge.bottom then 1 else 0) - 1
       else targetIndex + (if edge = Edge.bottom then 1 else 0)) ∧
    getReorderDestinationIndex sourceIndex (some edge) targetIndex < n := by
  refine ⟨?_, getReorderDestinationIndex_lt sourceIndex targetIndex n (some edge) hs ht⟩
  cases edge <;> unfold getReorderDestinationIndex <;> simp [Nat.lt_succ_iff]

/-- Witness for C1 at `sourceIndex = 0`, `targetIndex = 2`, edge
`bottom`, list length `3`. -/
theorem getReorderDestinationIndex_rule_witness :
    (getReorderDestinationIndex 0 (some Edge.bottom) 2 =
      (if 0 < 2 + (if Edge.bottom = Edge.bottom then 1 else 0)
       then 2 + (if Edge.bottom = Edge.bottom then 1 else 0) - 1
       else 2 + (if Edge.bottom = Edge.bottom then 1 else 0))) ∧
    getReorderDestinationIndex 0 (some Edge.bottom) 2 < 3 :=
  getReorderDestinationIndex_rule 0 2 3 Edge.bottom (by decide) (by decide)

/-- C9: the Reorder Calculator treats a missing closest edge (`none`)
exactly as it treats edge `after` (`bottom` on the vertical axis). -/
theorem getReorderDestinationIndex_none_eq_after (startIndex indexOfTarget : Nat) :
    getReorderDestinationIndex startIndex none indexOfTarget =
      getReorderDestinationIndex startIndex (some Edge.bottom) indexOfTarget := by
  unfold getReorderDestinationIndex
  simp

/-- C3: whenever the computed destination equals `startIndex` — in
particular when an item is dropped onto itself with any edge — the state
is returned unchanged: same list, same (absent) move record, so no
post-move side effect fires. -/
theorem reorderItem_noop (listState : ListState) (startIndex indexOfTarget : Nat)
    (closestEdgeOfTarget : Option Edge)
    (h : startIndex = indexOfTarget ∨
      getReorderDestinationIndex startIndex closestEdgeOfTarget indexOfTarget = startIndex) :
    reorderItem startIndex indexOfTarget closestEdgeOfTarget listState = listState := by
  have hfin : getReorderDestinationIndex startIndex closestEdgeOfTarget indexOfTarget
      = startIndex := by
    rcases h with h | h
    · subst h
      exact getReorderDestinationIndex_self _ _
    · exact h
  unfold reorderItem
  simp [hfin]

/-- Witness for C3: dropping item 1 onto itself leaves the default state
unchanged. -/
theorem reorderItem_noop_witness :
    reorderItem 1 1 (some Edge.top) ⟨defaultItems, none⟩ = ⟨defaultItems, none⟩ :=
  reorderItem_noop ⟨defaultItems, none⟩ 1 1 (some Edge.top) (Or.inl rfl)

/-- C6: applying the reorder move `s → d` and then the inverse move
`d → s` restores the original list, for every list and valid pair of
distinct indices. -/
theorem reorder_roundTrip {α : Type} (l : List α) (s d : Nat)
    (hs : s < l.length) (hd : d < l.length) (hne : s ≠ d) :
    reorder (reorder l s d) d s = l := by
  have hsome : l[s]? = some (l.get ⟨s, hs⟩) := by
    rw [List.getElem?_eq_getElem hs, List.get_eq_getElem]
  have herase : (l.eraseIdx s).length + 1 = l.length :=
    List.length_eraseIdx_add_one hs
  have hde : d ≤ (l.eraseIdx s).length := by omega
  have h1 : reorder l s d = (l.eraseIdx s).insertIdx d (l.get ⟨s, hs⟩) := by
    unfold reorder
    rw [hsome]
  have hlen1 : ((l.eraseIdx s).insertIdx d (l.get ⟨s, hs⟩)).length = l.length := by
    rw [List.length_insertIdx d _ hde]
    omega
  have hdlt : d < ((l.eraseIdx s).insertIdx d (l.get ⟨s, hs⟩)).length := by
    rw [hlen1]
    exact hd
  have hget2 : ((l.eraseIdx s).insertIdx d (l.get ⟨s, hs⟩))[d]? = some (l.get ⟨s, hs⟩) := by
    rw [List.getElem?_eq_getElem hdlt, List.getElem_insertIdx_self _ _ _ hde]
  rw [h1]
  unfold reorder
  rw [hget2]
  change (((l.eraseIdx s).insertIdx d (l.get ⟨s, hs⟩)).eraseIdx d).insertIdx s
      (l.get ⟨s, hs⟩) = l
  rw [List.eraseIdx_insertIdx, insertIdx_eraseIdx_self l s hs]

/-- Witness for C6: moving the first default item to the end and back
restores the default list. -/
theorem reorder_roundTrip_witness :
    reorder (reorder defaultItems 0 2) 2 0 = defaultItems :=
  reorder_roundTrip defaultItems 0 2 (by decide) (by decide) (by decide)

/-- C2 counterexample: in the `example.tsx` variant (cited by the claim
and mounted by `part_001`) the move record carries no `previousIndex`,
`currentIndex` or `totalCount`: moving `task-1` from index 0 to the end
of the default list and moving it from index 1 to the end of a list
where it sits second produce identical records `{ item: task-1 }`,
although the claim requires records with `previousIndex = 0` and
`previousIndex = 1` respectively, which would have to differ. -/
theorem reorderItem_record_cex :
    (reorderItemSimple 0 2 (some Edge.bottom) ⟨defaultItems, none⟩).lastMoved =
      (reorderItemSimple 1 2 (some Edge.bottom)
        ⟨[⟨"task-2", "Create and maintain office inventory"⟩,
          ⟨"task-1", "Organize a team-building event"⟩,
          ⟨"task-3", "Update company website content"⟩], none⟩).lastMoved ∧
    (reorderItemSimple 0 2 (some Edge.bottom) ⟨defaultItems, none⟩).lastMoved =
      some { item := some ⟨"task-1", "Organize a team-building event"⟩ } := by
  decide

/-- C2 amended: when the computed destination differs from `startIndex`,
both variants of `reorderItem` produce — in a single state transition —
the list obtained by removing the item at `startIndex` and reinserting
it at the computed destination (a permutation of the old list, of
unchanged length). The `part_000` variant records the move with the item
previously at `startIndex`, `previousIndex = startIndex`, `currentIndex`
the destination and `numberOfItems` the list length at the time of the
move; the `example.tsx` variant records only the moved item. -/
theorem reorderItem_moves (items : List Item) (last : Option LastCardMoved)
    (lastS : Option LastMoved) (startIndex indexOfTarget : Nat)
    (closestEdgeOfTarget : Option Edge) (moved : Item)
    (hmoved : items[startIndex]? = some moved)
    (ht : indexOfTarget < items.length)
    (hne : getReorderDestinationIndex startIndex closestEdgeOfTarget indexOfTarget ≠ startIndex) :
    (reorderItem startIndex indexOfTarget closestEdgeOfTarget ⟨items, last⟩).items =
      (items.eraseIdx startIndex).insertIdx
        (getReorderDestinationIndex startIndex closestEdgeOfTarget indexOfTarget) moved ∧
    ((reorderItem startIndex indexOfTarget closestEdgeOfTarget ⟨items, last⟩).items).Perm
      items ∧
    (reorderItem startIndex indexOfTarget closestEdgeOfTarget ⟨items, last⟩).items.length =
      items.length ∧
    (reorderItem startIndex indexOfTarget closestEdgeOfTarget ⟨items, last⟩).lastCardMoved =
      some { item := some moved
             previousIndex := startIndex
             currentIndex :=
               getReorderDestinationIndex startIndex closestEdgeOfTarget indexOfTarget
             numberOfItems := items.length } ∧
    (reorderItemSimple startIndex indexOfTarget closestEdgeOfTarget ⟨items, lastS⟩).items =
      (items.eraseIdx startIndex).insertIdx
        (getReorderDestinationIndex startIndex closestEdgeOfTarget indexOfTarget) moved ∧
    (reorderItemSimple startIndex indexOfTarget closestEdgeOfTarget ⟨items, lastS⟩).lastMoved =
      some { item := some moved } := by
  have hs : startIndex < items.length := by
    by_contra hcon
    rw [List.getElem?_eq_none (Nat.le_of_not_lt hcon)] at hmoved
    exact Option.noConfusion hmoved
  have hm : items.get ⟨startIndex, hs⟩ = moved := by
    have h := Option.some.inj ((List.getElem?_eq_getElem hs).symm.trans hmoved)
    simpa [List.get_eq_getElem] using h
  have hflt : getReorderDestinationIndex startIndex closestEdgeOfTarget indexOfTarget
      < items.length :=
    getReorderDestinationIndex_lt _ _ _ _ hs ht
  have herase : (items.eraseIdx startIndex).length + 1 = items.length :=
    List.length_eraseIdx_add_one hs
  have hde : getReorderDestinationIndex startIndex closestEdgeOfTarget indexOfTarget
      ≤ (items.eraseIdx startIndex).length := by omega
  have hreord : reorder items startIndex
      (getReorderDestinationIndex startIndex closestEdgeOfTarget indexOfTarget) =
      (items.eraseIdx startIndex).insertIdx
        (getReorderDestinationIndex startIndex closestEdgeOfTarget indexOfTarget) moved := by
    unfold reorder
    rw [hmoved]
  have hstate : reorderItem startIndex indexOfTarget closestEdgeOfTarget ⟨items, last⟩ =
      { items := (items.eraseIdx startIndex).insertIdx
          (getReorderDestinationIndex startIndex closestEdgeOfTarget indexOfTarget) moved
        lastCardMoved := some
          { item := some moved
            previousIndex := startIndex
            currentIndex :=
              getReorderDestinationIndex startIndex closestEdgeOfTarget indexOfTarget
            numberOfItems := items.length } } := by
    simp only [reorderItem]
    rw [if_neg hne, hreord, hmoved]
  have hstateS : reorderItemSimple startIndex indexOfTarget closestEdgeOfTarget
      ⟨items, lastS⟩ =
      { items := (items.eraseIdx startIndex).insertIdx
          (getReorderDestinationIndex startIndex closestEdgeOfTarget indexOfTarget) moved
        lastMoved := some { item := some moved } } := by
    simp only [reorderItemSimple]
    rw [if_neg hne, hreord, hmoved]
  refine ⟨?_, ?_, ?_, ?_, ?_, ?_⟩
  · rw [hstate]
  · rw [hstate]
    have h1 := insertIdx_perm_cons moved
      (getReorderDestinationIndex startIndex closestEdgeOfTarget indexOfTarget)
      (items.eraseIdx startIndex) hde
    have h2 := perm_get_cons_eraseIdx items startIndex hs
    rw [hm] at h2
    exact h1.trans h2.symm
  · rw [hstate]
    show ((items.eraseIdx startIndex).insertIdx
        (getReorderDestinationIndex startIndex closestEdgeOfTarget indexOfTarget) moved).length =
      items.length
    rw [List.length_insertIdx _ _ hde]
    omega
  · rw [hstate]
  · rw [hstateS]
  · rw [hstateS]

/-- Witness for the amended C2: in both variants, dragging the first
default item onto the third with edge `bottom` moves it to the end;
`part_000` records the full move and `example.tsx` only the item. -/
theorem reorderItem_moves_witness :
    (reorderItem 0 2 (some Edge.bottom) ⟨defaultItems, none⟩).items =
      (defaultItems.eraseIdx 0).insertIdx
        (getReorderDestinationIndex 0 (some Edge.bottom) 2)
        ⟨"task-1", "Organize a team-building event"⟩ ∧
    ((reorderItem 0 2 (some Edge.bottom) ⟨defaultItems, none⟩).items).Perm defaultItems ∧
    (reorderItem 0 2 (some Edge.bottom) ⟨defaultItems, none⟩).items.length =
      defaultItems.length ∧
    (reorderItem 0 2 (some Edge.bottom) ⟨defaultItems, none⟩).lastCardMoved =
      some { item := some ⟨"task-1", "Organize a team-building event"⟩
             previousIndex := 0
             currentIndex := getReorderDestinationIndex 0 (some Edge.bottom) 2
             numberOfItems := defaultItems.length } ∧
    (reorderItemSimple 0 2 (some Edge.bottom) ⟨defaultItems, none⟩).items =
      (defaultItems.eraseIdx 0).insertIdx
        (getReorderDestinationIndex 0 (some Edge.bottom) 2)
        ⟨"task-1", "Organize a team-building event"⟩ ∧
    (reorderItemSimple 0 2 (some Edge.bottom) ⟨defaultItems, none⟩).lastMoved =
      some { item := some ⟨"task-1", "Organize a team-building event"⟩ } :=
  reorderItem_moves defaultItems none none 0 2 (some Edge.bottom)
    ⟨"task-1", "Organize a team-building event"⟩ rfl (by decide) (by decide)

/-- C4: when the first drop target carries an item id that does not occur
in the current list, the `onDrop` handler returns the state unchanged —
no reorder, no move record — and, being total, raises no error. -/
theorem onDrop_unresolvedTarget (listState : ListState) (rest : List TargetPayload)
    (sourceData : DragData) (tgt : ItemData) (closestEdge : Option Edge)
    (habsent : ∀ it ∈ listState.items, it.id ≠ tgt.item.id) :
    onDrop listState (⟨DragData.itemData tgt, closestEdge⟩ :: rest) sourceData
      = listState := by
  have hfind : listState.items.findIdx? (fun it => it.id == tgt.item.id) = none := by
    rw [List.findIdx?_eq_none_iff]
    intro it hit
    simpa using habsent it hit
  cases sourceData with
  | itemData src =>
    simp only [onDrop]
    rw [hfind]
  | other => rfl

/-- Witness for C4: a drop whose target id `task-99` is absent from the
default list leaves the state unchanged. -/
theorem onDrop_unresolvedTarget_witness :
    onDrop ⟨defaultItems, none⟩
      (⟨DragData.itemData ⟨⟨"task-99", "removed mid-drag"⟩, 2, 7⟩, some Edge.top⟩ :: [])
      (DragData.itemData ⟨⟨"task-1", "Organize a team-building event"⟩, 0, 7⟩)
      = ⟨defaultItems, none⟩ :=
  onDrop_unresolvedTarget ⟨defaultItems, none⟩ []
    (DragData.itemData ⟨⟨"task-1", "Organize a team-building event"⟩, 0, 7⟩)
    ⟨⟨"task-99", "removed mid-drag"⟩, 2, 7⟩ (some Edge.top) (by decide)

/-- C10: a monitored drop whose source payload fails the item-data shape
check, or carries an `instanceId` different from this controller's,
never changes the list state. -/
theorem monitorDrop_foreign (instanceId : Nat) (listState : ListState)
    (dropTargets : List TargetPayload) (sourceData : DragData)
    (h : isItemData sourceData = false ∨
      ∀ data, sourceData = DragData.itemData data → data.instanceId ≠ instanceId) :
    monitorDrop instanceId listState dropTargets sourceData = listState := by
  have hcm : canMonitor instanceId sourceData = false := by
    cases sourceData with
    | itemData data =>
      rcases h with h | h
      · simp [isItemData] at h
      · simpa [canMonitor] using h data rfl
    | other => rfl
  unfold monitorDrop
  rw [hcm]
  simp

/-- Witness for C10: a drop from a controller with `instanceId = 7` does
not change a controller whose `instanceId = 5`. -/
theorem monitorDrop_foreign_witness :
    monitorDrop 5 ⟨defaultItems, none⟩ []
      (DragData.itemData ⟨⟨"task-1", "Organize a team-building event"⟩, 0, 7⟩)
      = ⟨defaultItems, none⟩ :=
  monitorDrop_foreign 5 ⟨defaultItems, none⟩ []
    (DragData.itemData ⟨⟨"task-1", "Organize a team-building event"⟩, 0, 7⟩)
    (Or.inr (fun data hd => by cases hd; decide))

/-- C5 counterexample: calling `reorderItem` with the out-of-range
`startIndex = 3` on the three-item default list does not signal any
condition — the code has no validation and no error channel — and it
silently updates the state, recording a move with `previousIndex = 3`
(out of range) and no moved item. This refutes the claim that invalid
indices are answered with an `InvalidIndex` signal instead of a silent
state change. -/
theorem reorderItem_invalid_index_cex :
    (reorderItem 3 0 (some Edge.top) ⟨defaultItems, none⟩).lastCardMoved =
      some ⟨none, 3, 0, 3⟩ ∧
    reorderItem 3 0 (some Edge.top) ⟨defaultItems, none⟩ ≠ ⟨defaultItems, none⟩ := by
  decide

/-- C5 amended: `reorderItem` performs no index validation and signals
nothing: with an out-of-range `startIndex` (and a computed destination
different from it) the update still fires, leaving the item list as is
but producing a move record with the out-of-range `previousIndex` and no
moved item. -/
theorem reorderItem_no_validation (listState : ListState) (startIndex indexOfTarget : Nat)
    (closestEdgeOfTarget : Option Edge)
    (hs : listState.items.length ≤ startIndex)
    (hne : getReorderDestinationIndex startIndex closestEdgeOfTarget indexOfTarget ≠ startIndex) :
    reorderItem startIndex indexOfTarget closestEdgeOfTarget listState =
      { items := listState.items
        lastCardMoved := some
          { item := none
            previousIndex := startIndex
            currentIndex :=
              getReorderDestinationIndex startIndex closestEdgeOfTarget indexOfTarget
            numberOfItems := listState.items.length } } := by
  have hnone : listState.items[startIndex]? = none := List.getElem?_eq_none hs
  have hreord : reorder listState.items startIndex
      (getReorderDestinationIndex startIndex closestEdgeOfTarget indexOfTarget) =
      listState.items := by
    unfold reorder
    rw [hnone]
  simp only [reorderItem]
  rw [if_neg hne, hreord, hnone]

/-- Witness for the amended C5 at `startIndex = 3` on the default list. -/
theorem reorderItem_no_validation_witness :
    reorderItem 3 1 (some Edge.top) ⟨defaultItems, none⟩ =
      { items := defaultItems
        lastCardMoved := some
          { item := none
            previousIndex := 3
            currentIndex := getReorderDestinationIndex 3 (some Edge.top) 1
            numberOfItems := defaultItems.length } } :=
  reorderItem_no_validation ⟨defaultItems, none⟩ 3 1 (some Edge.top) (by decide) (by decide)

/-- C7 counterexample: the `unregister` closure returned by `register`
deletes by key, not by entry. After `register("task-1", 1)` and a
replacing `register("task-1", 2)`, invoking the first unregister removes
the newer entry: `lookup("task-1")` yields `none`, not `some 2` — so an
old unregister does affect a different (newer) entry, refuting the claim
that it removes exactly the entry it created. -/
theorem register_unregister_cex :
    getElement
      ((register Registry.empty "task-1" 1).2
        (register (register Registry.empty "task-1" 1).1 "task-1" 2).1)
      "task-1" = none ∧
    getElement
      ((register Registry.empty "task-1" 1).2
        (register (register Registry.empty "task-1" 1).1 "task-1" 2).1)
      "task-1" ≠ some 2 := by
  exact ⟨rfl, by decide⟩

/-- C7 amended: `register` overwrites any existing entry for the same id
(last registration wins) and returns an unregister function that removes
whatever entry is currently stored under that id — in particular the
entry it created when that entry is still present, so after
`register(id, h)` and its own unregister, `lookup(id)` is not-found —
while entries under every other key are untouched. -/
theorem registry_register_unregister (r current : Registry) (itemId : String) (e1 e2 : Nat) :
    getElement (register r itemId e1).1 itemId = some e1 ∧
    getElement (register (register r itemId e1).1 itemId e2).1 itemId = some e2 ∧
    getElement ((register r itemId e1).2 (register r itemId e1).1) itemId = none ∧
    getElement ((register r itemId e1).2 current) itemId = none ∧
    (∀ key, key ≠ itemId → getElement ((register r itemId e1).2 current) key =
      getElement current key) := by
  refine ⟨?_, ?_, ?_, ?_, ?_⟩
  · simp [register, Registry.set, getElement]
  · simp [register, Registry.set, getElement]
  · simp [register, Registry.set, Registry.delete, getElement]
  · simp [register, Registry.delete, getElement]
  · intro key hk
    simp only [register, Registry.delete, getElement]
    rw [if_neg hk]

/-- Witness for the amended C7: unregistering `task-1` leaves the entry
of a different key untouched. -/
theorem registry_register_unregister_witness :
    getElement ((register Registry.empty "task-1" 1).2 Registry.empty) "task-2" =
      getElement Registry.empty "task-2" :=
  (registry_register_unregister Registry.empty Registry.empty "task-1" 1 2).2.2.2.2
    "task-2" (by decide)

/-- C8 counterexample: in the `onDrag` handler of `example.tsx` (the
variant mounted by `part_001`) there is no adjacency filtering: with the
dragged item at index 1, the item at index 0 — the neighbour on the side
already touching the dragged item — does display a `bottom` indicator,
refuting the claim that such an indicator is never shown. -/
theorem onDrag_adjacent_indicator_cex :
    onDragClosestEdgeSimple 0 1 (some Edge.bottom) = some Edge.bottom := by
  decide

/-- C8 amended: the adjacency filtering holds for the `onDrag` handler of
`part_000`: the dragged item itself displays no indicator, the item just
before the dragged item (`index + 1 = sourceIndex`) never displays a
`bottom` indicator, and the item just after (`index = sourceIndex + 1`)
never displays a `top` indicator. The `example.tsx` handler guarantees
only the first clause: the dragged item itself displays no indicator. -/
theorem onDrag_no_adjacent_indicator (index sourceIndex : Nat) (closestEdge : Option Edge) :
    onDragClosestEdge sourceIndex sourceIndex closestEdge = none ∧
    onDragClosestEdge index (index + 1) closestEdge ≠ some Edge.bottom ∧
    onDragClosestEdge (sourceIndex + 1) sourceIndex closestEdge ≠ some Edge.top ∧
    onDragClosestEdgeSimple sourceIndex sourceIndex closestEdge = none := by
  refine ⟨?_, ?_, ?_, ?_⟩
  · simp [onDragClosestEdge]
  · unfold onDragClosestEdge
    rw [if_neg (by omega : ¬ index = index + 1)]
    by_cases hb : closestEdge = some Edge.bottom
    · rw [if_pos (Or.inl ⟨rfl, hb⟩)]
      simp
    · rw [if_neg]
      · exact fun h => hb h
      · rintro (⟨-, h⟩ | ⟨h, -⟩)
        · exact hb h
        · omega
  · unfold onDragClosestEdge
    rw [if_neg (by omega : ¬ sourceIndex + 1 = sourceIndex)]
    by_cases ht : closestEdge = some Edge.top
    · rw [if_pos (Or.inr ⟨rfl, ht⟩)]
      simp
    · rw [if_neg]
      · exact fun h => ht h
      · rintro (⟨h, -⟩ | ⟨-, h⟩)
        · omega
        · exact ht h
  · simp [onDragClosestEdgeSimple]

/-- Witness for the amended C8: with the drag source at index 1, the item
at index 0 shows no indicator when hovered on its bottom edge under the
filtered handler. -/
theorem onDrag_no_adjacent_indicator_witness :
    onDragClosestEdge 0 (0 + 1) (some Edge.bottom) ≠ some Edge.bottom :=
  (onDrag_no_adjacent_indicator 0 1 (some Edge.bottom)).2.1
